import Mathlib

/-!
Verification of the zhusuan SGMCMC module (src/zhusuan/sgmcmc.py).

The module implements three stochastic-gradient MCMC samplers (SGLD, SGHMC,
SGNHT) as TensorFlow-1 graph programs.  We shallowly embed the numeric
computations over the rationals: a tensor is a shape together with flat data,
the engine square root is an explicit function parameter (the embedding never
needs its numeric value, only which argument the code passes to it), and a
call of tf.random_normal(shape, stddev = s) is modelled as s * eps where eps
is a caller-supplied stream of standard-normal draws, which is exactly how the
engine realises a scaled normal draw.  Integer mod (tf.mod) by zero is a
runtime failure of the engine, modelled by Option.  Python-level control flow
of SGMCMC.sample (tuple unpacking, the latent type check, the base-class
hooks that return a NotImplementedError instance) is embedded as explicit
result inductives.
-/

namespace ZhusuanSGMCMC

/-- Tensor with an explicit shape and row-major flat data over the rationals,
modelling a tf float tensor for the purposes of the update equations. -/
structure Tensor where
  shape : List Nat
  data : List ℚ
deriving DecidableEq, Repr

/-- Number of elements a tensor of the given shape holds. -/
def numel (shape : List Nat) : Nat := shape.prod

/-- Scalar (rank-0) tensor, as produced by tf.convert_to_tensor on a float. -/
def scalarTensor (x : ℚ) : Tensor := ⟨[], [x]⟩

/-- Embedding of tf.zeros_like: same shape, all entries zero. -/
def Tensor.zerosLike (t : Tensor) : Tensor :=
  ⟨t.shape, t.data.map fun _ => 0⟩

/-- Elementwise addition of two tensors of the same shape (tf add). -/
def Tensor.add (a b : Tensor) : Tensor :=
  ⟨a.shape, a.data.zipWith (· + ·) b.data⟩

/-- Multiplication of a tensor by a scalar (broadcast scalar * tensor). -/
def Tensor.smul (c : ℚ) (t : Tensor) : Tensor :=
  ⟨t.shape, t.data.map fun x => c * x⟩

/-- Elementwise square, embedding of v ** 2. -/
def Tensor.square (t : Tensor) : Tensor :=
  ⟨t.shape, t.data.map fun x => x * x⟩

/-- Embedding of tf.reduce_mean over all elements. -/
def reduceMean (t : Tensor) : ℚ :=
  t.data.sum / (t.data.length : ℚ)

/-- Embedding of tf.random_normal(shape, stddev = s): the engine scales a
fresh stream eps of standard-normal draws by the stddev; the result always
has the requested shape. -/
def randomNormal (shape : List Nat) (stddev : ℚ) (eps : Nat → ℚ) : Tensor :=
  ⟨shape, (List.range (numel shape)).map fun i => stddev * eps i⟩

/-- Embedding of integer tf.mod (floormod).  A zero divisor is a runtime
failure of the executing engine (integer mod by zero), hence none. -/
def tfMod (a n : Int) : Option Int :=
  if n = 0 then none else some (a % n)

/-- Well-formedness of a tensor: the flat data has exactly as many entries as
the shape prescribes.  Every tensor the engine produces satisfies this. -/
def Tensor.WF (t : Tensor) : Prop := t.data.length = numel t.shape

instance (t : Tensor) : Decidable t.WF := by
  unfold Tensor.WF; infer_instance

/-! ## SGLD (lines 82-101) -/

/-- Embedding of SGLD._update_single (lines 97-99): the new latent value
new_q = q + 0.5 * lr * grad + tf.random_normal(tf.shape(q), stddev = sqrt lr),
with sqrtF the engine square root and eps the fresh standard-normal stream
behind the random_normal call. -/
def sgldUpdateSingle (sqrtF : ℚ → ℚ) (lr : ℚ) (q grad : Tensor)
    (eps : Nat → ℚ) : Tensor :=
  (q.add (Tensor.smul (0.5 * lr) grad)).add
    (randomNormal q.shape (sqrtF lr) eps)

/-- Modelled from the spec wording of section 4.2: new_q = q + 0.5 * lr * g +
noise with noise drawn elementwise from Normal(0, lr), i.e. the stddev passed
to the normal generator is the square root of lr. -/
def specSGLDUpdate (sqrtF : ℚ → ℚ) (lr : ℚ) (q g : Tensor)
    (eps : Nat → ℚ) : Tensor :=
  let noise := randomNormal q.shape (sqrtF lr) eps
  (q.add (Tensor.smul (0.5 * lr) g)).add noise

/-! ## SGHMC (lines 104-147) -/

/-- Normalisation of the n_iter_resample_v constructor argument of SGHMC
(lines 116-117): None is replaced by 0 before conversion to a tensor. -/
def normalizeNIterResampleV (n : Option Int) : Int :=
  match n with
  | none => 0
  | some k => k

/-- Result of one SGHMC per-latent update: the next latent value, the next
velocity, and the diagnostic mean_k (the info dict of line 147). -/
structure SGHMCRes where
  newQ : Tensor
  newV : Tensor
  meanK : ℚ
deriving DecidableEq, Repr

/-- Embedding of SGHMC._update_single (lines 130-147).  The predicate of the
tf.cond evaluates tf.mod(new_t, n_iter_resample_v) at every step; a zero
divisor makes the whole step fail (none).  Otherwise old_v is a fresh
Normal(0, lr) draw when the remainder is 0 and the stored velocity v
otherwise, and then
new_v = (1 - alpha) * old_v + lr * grad + Normal(0, 2 * (alpha - beta) * lr),
new_q = q + new_v, mean_k = reduce_mean(new_v ** 2). -/
def sghmcUpdateSingle (sqrtF : ℚ → ℚ) (lr alpha beta : ℚ)
    (nIterResampleV : Int) (newT : Int) (q v grad : Tensor)
    (eps1 eps2 : Nat → ℚ) : Option SGHMCRes :=
  match tfMod newT nIterResampleV with
  | none => none
  | some r =>
    let oldV := if r = 0 then randomNormal v.shape (sqrtF lr) eps1 else v
    let newV := ((Tensor.smul (1 - alpha) oldV).add
        (Tensor.smul lr grad)).add
      (randomNormal oldV.shape (sqrtF (2 * (alpha - beta) * lr)) eps2)
    let newQ := q.add newV
    some ⟨newQ, newV, reduceMean newV.square⟩

/-- Modelled from the spec wording of section 4.3: if resample_interval > 0
and t mod resample_interval == 0 then old_v is a fresh Normal(0, lr) draw of
the velocity's shape, else old_v is the current velocity; then
new_v = (1 - alpha) * old_v + lr * g + Normal(0, 2 * (alpha - beta) * lr),
new_q = q + new_v, and mean_k is the mean over all elements of new_v
squared. -/
def specSGHMCUpdate (sqrtF : ℚ → ℚ) (lr alpha beta : ℚ)
    (resampleInterval : Int) (t : Int) (q v g : Tensor)
    (eps1 eps2 : Nat → ℚ) : SGHMCRes :=
  let oldV :=
    if 0 < resampleInterval ∧ t % resampleInterval = 0 then
      randomNormal v.shape (sqrtF lr) eps1
    else v
  let newV := ((Tensor.smul (1 - alpha) oldV).add (Tensor.smul lr g)).add
    (randomNormal oldV.shape (sqrtF (2 * (alpha - beta) * lr)) eps2)
  let newQ := q.add newV
  let meanOfSquares := newV.square.data.sum / (newV.square.data.length : ℚ)
  ⟨newQ, newV, meanOfSquares⟩

/-- Embedding of SGHMC._define_variables (lines 122-123): one zero velocity
variable per latent, with the latent's shape. -/
def sghmcDefineVariables (qs : List Tensor) : List Tensor :=
  qs.map Tensor.zerosLike

/-! ## SGNHT (lines 150-190) -/

/-- Auxiliary variables an SGNHT sampler allocates at bind time. -/
structure SGNHTAux where
  vs : List Tensor
  xis : List Tensor
deriving DecidableEq, Repr

/-- Embedding of SGNHT._define_variables (lines 163-165): one zero velocity
variable per latent (shape of the latent), and one thermostat variable per
latent initialised to tf.Variable(self.alpha) where alpha is the scalar
tensor made from the variance_extra float, hence a rank-0 variable. -/
def sgnhtDefineVariables (alpha : ℚ) (qs : List Tensor) : SGNHTAux :=
  { vs := qs.map Tensor.zerosLike
    xis := qs.map fun _ => scalarTensor alpha }

/-- Result of one SGNHT per-latent update: next latent value, next velocity,
next thermostat value, and the diagnostics mean_k and xi of line 190. -/
structure SGNHTRes where
  newQ : Tensor
  newV : Tensor
  newXi : ℚ
  meanK : ℚ
deriving DecidableEq, Repr

/-- Embedding of SGNHT._update_single (lines 172-190).  The thermostat
variable holds a scalar; its rational value is the xi argument.  old_v is a
fresh Normal(0, lr) draw exactly when the incremented counter new_t equals 0
and the stored velocity otherwise, then
new_v = (1 - xi) * old_v + lr * grad + Normal(0, 2 * alpha * lr),
new_q = q + new_v, mean_k = reduce_mean(new_v ** 2),
new_xi = xi + tune_rate * (mean_k - lr). -/
def sgnhtUpdateSingle (sqrtF : ℚ → ℚ) (lr alpha tuneRate : ℚ) (newT : Int)
    (q v : Tensor) (xi : ℚ) (grad : Tensor) (eps1 eps2 : Nat → ℚ) :
    SGNHTRes :=
  let oldV := if newT = 0 then randomNormal v.shape (sqrtF lr) eps1 else v
  let newV := ((Tensor.smul (1 - xi) oldV).add (Tensor.smul lr grad)).add
    (randomNormal oldV.shape (sqrtF (2 * alpha * lr)) eps2)
  let newQ := q.add newV
  let meanK := reduceMean newV.square
  ⟨newQ, newV, xi + tuneRate * (meanK - lr), meanK⟩

/-- Modelled from the spec wording of section 4.4: if t == 0 then old_v is a
fresh Normal(0, lr) draw (first-step initialisation only), else old_v is the
current velocity; new_v = (1 - xi) * old_v + lr * g + Normal(0, 2*alpha*lr),
new_q = q + new_v, mean_k is the mean of new_v squared, and
new_xi = xi + tune_rate * (mean_k - lr). -/
def specSGNHTUpdate (sqrtF : ℚ → ℚ) (lr alpha tuneRate : ℚ) (t : Int)
    (q v : Tensor) (xi : ℚ) (g : Tensor) (eps1 eps2 : Nat → ℚ) :
    SGNHTRes :=
  let oldV := if t = 0 then randomNormal v.shape (sqrtF lr) eps1 else v
  let newV := ((Tensor.smul (1 - xi) oldV).add (Tensor.smul lr g)).add
    (randomNormal oldV.shape (sqrtF (2 * alpha * lr)) eps2)
  let newQ := q.add newV
  let meanOfSquares := newV.square.data.sum / (newV.square.data.length : ℚ)
  ⟨newQ, newV, xi + tuneRate * (meanOfSquares - lr), meanOfSquares⟩

/-! ## Python-level control flow of SGMCMC.sample (lines 30-62) -/

/-- Python value a latent dict may map a name to: a tf.Variable holding a
tensor, a plain (non-assignable) tensor, or some other object. -/
inductive PyVal where
  | tfVariable (t : Tensor)
  | tfTensor (t : Tensor)
  | pyObject
deriving DecidableEq, Repr

/-- Embedding of isinstance(v, tf.Variable) (line 44). -/
def isTFVariable : PyVal → Bool
  | .tfVariable _ => true
  | _ => false

/-- Tensor held by an assignable latent value (meaningful once the type check
has passed; junk otherwise). -/
def PyVal.heldTensor : PyVal → Tensor
  | .tfVariable t => t
  | .tfTensor t => t
  | .pyObject => ⟨[], []⟩

/-- Outcome of the bind phase of SGMCMC.sample, in the order the code can
produce them: the tuple-unpacking ValueError of line 42 on an empty latent
dict, the TypeError of lines 43-46 naming the first latent key whose value
is not a tf.Variable, or success carrying the auxiliary state built by the
algorithm's _define_variables. -/
inductive BindResult (σ : Type) where
  | unpackValueError
  | latentTypeError (key : String)
  | bound (aux : σ)
deriving DecidableEq

/-- First latent key whose value fails the isinstance check of line 44, in
iteration order; the loop of lines 43-46 raises on exactly this key. -/
def firstNonVariable : List (String × PyVal) → Option String
  | [] => none
  | (k, v) :: rest => if isTFVariable v then firstNonVariable rest else some k

/-- Embedding of the bind phase of SGMCMC.sample (lines 42-48), parametric in
the concrete algorithm's _define_variables.  On an empty latent dict the
unpacking of line 42 fails with ValueError before the type check can run; a
latent value that is not a tf.Variable raises TypeError at the first
offending key; only then are the auxiliary variables allocated. -/
def sgmcmcSampleBind {σ : Type} (defineVariables : List Tensor → σ)
    (latent : List (String × PyVal)) : BindResult σ :=
  match latent with
  | [] => .unpackValueError
  | _ =>
    match firstNonVariable latent with
    | some k => .latentTypeError k
    | none => .bound (defineVariables (latent.map fun kv => kv.2.heldTensor))

/-- Result of calling a Python function: a normal return value, or a raised
exception (identified by its class name). -/
inductive PyCallResult (V : Type) where
  | ret (v : V)
  | raised (excClass : String)
deriving DecidableEq

/-- The value an un-overridden base-class hook hands back: an instance of
NotImplementedError, used as an ordinary object. -/
inductive NotImplErrInstance where
  | mk
deriving DecidableEq, Repr

/-- Embedding of the base-class SGMCMC._update (lines 64-65): its body is
return NotImplementedError(), so the call returns normally with an exception
instance as its value and raises nothing. -/
def sgmcmcUpdateHookBase : PyCallResult NotImplErrInstance :=
  .ret .mk

/-- Embedding of the base-class SGMCMC._define_variables (lines 67-68): its
body is return NotImplementedError(), so the call returns normally with an
exception instance as its value and raises nothing. -/
def sgmcmcDefineVariablesHookBase : PyCallResult NotImplErrInstance :=
  .ret .mk

/-! ## Chain states: the step counter t and iterated stepping -/

/-- Rational value held by a rank-0 tensor (the value of a scalar tf
variable). -/
def Tensor.item (t : Tensor) : ℚ := t.data.headD 0

/-- State of an SGLD sampler: the shared counter t, a tf variable initialised
to -1 in SGMCMC.__init__ (line 28), and the latent variables. -/
structure SGLDChain where
  t : Int
  qs : List Tensor
deriving DecidableEq, Repr

/-- SGLD state as sample leaves it right after bind: t = -1, latents
untouched (SGLD._define_variables is pass). -/
def sgldChainInit (qs : List Tensor) : SGLDChain := ⟨-1, qs⟩

/-- Per-latent traversal of SGLD._update (line 95): one _update_single per
latent, positionally aligned with the gradients and noise streams. -/
def sgldBatch (sqrtF : ℚ → ℚ) (lr : ℚ) :
    List Tensor → List Tensor → List (Nat → ℚ) → List Tensor
  | q :: qs, g :: gs, e :: es =>
    sgldUpdateSingle sqrtF lr q g e :: sgldBatch sqrtF lr qs gs es
  | _, _, _ => []

/-- Embedding of running one SGLD step (SGLD._update, lines 94-95): the
latents are updated; the counter t is never read or incremented there. -/
def sgldChainStep (sqrtF : ℚ → ℚ) (lr : ℚ)
    (gradFn : List Tensor → List Tensor) (epss : List (Nat → ℚ))
    (st : SGLDChain) : SGLDChain :=
  ⟨st.t, sgldBatch sqrtF lr st.qs (gradFn st.qs) epss⟩

/-- State of an SGHMC sampler: counter t, latents, velocities. -/
structure SGHMCChain where
  t : Int
  qs : List Tensor
  vs : List Tensor
deriving DecidableEq, Repr

/-- SGHMC state right after bind: t = -1 (line 28) and zero velocities from
SGHMC._define_variables. -/
def sghmcChainInit (qs : List Tensor) : SGHMCChain :=
  ⟨-1, qs, sghmcDefineVariables qs⟩

/-- Per-latent traversal of SGHMC._update (lines 127-128), all latents
receiving the one incremented counter value newT; any per-latent engine
failure fails the whole step. -/
def sghmcBatch (sqrtF : ℚ → ℚ) (lr alpha beta : ℚ) (nRes newT : Int) :
    List Tensor → List Tensor → List Tensor →
    List ((Nat → ℚ) × (Nat → ℚ)) → Option (List SGHMCRes)
  | q :: qs, v :: vs, g :: gs, e :: es =>
    match sghmcUpdateSingle sqrtF lr alpha beta nRes newT q v g e.1 e.2 with
    | none => none
    | some r =>
      match sghmcBatch sqrtF lr alpha beta nRes newT qs vs gs es with
      | none => none
      | some rs => some (r :: rs)
  | _, _, _, _ => some []

/-- Embedding of running one SGHMC step (SGHMC._update, lines 125-128):
new_t = t.assign_add(1) runs first, then every latent is updated with the
same new_t. -/
def sghmcChainStep (sqrtF : ℚ → ℚ) (lr alpha beta : ℚ) (nRes : Int)
    (gradFn : List Tensor → List Tensor)
    (epss : List ((Nat → ℚ) × (Nat → ℚ))) (st : SGHMCChain) :
    Option SGHMCChain :=
  let newT := st.t + 1
  (sghmcBatch sqrtF lr alpha beta nRes newT st.qs st.vs (gradFn st.qs)
      epss).map fun rs => ⟨newT, rs.map (·.newQ), rs.map (·.newV)⟩

/-- K successive SGHMC steps, with per-step fresh noise streams. -/
def sghmcChainRun (sqrtF : ℚ → ℚ) (lr alpha beta : ℚ) (nRes : Int)
    (gradFn : List Tensor → List Tensor)
    (epssAt : Nat → List ((Nat → ℚ) × (Nat → ℚ))) :
    Nat → SGHMCChain → Option SGHMCChain
  | 0, st => some st
  | k + 1, st =>
    (sghmcChainStep sqrtF lr alpha beta nRes gradFn (epssAt k) st).bind
      (sghmcChainRun sqrtF lr alpha beta nRes gradFn epssAt k)

/-- State of an SGNHT sampler: counter t, latents, velocities, and the
scalar values of the thermostat variables. -/
structure SGNHTChain where
  t : Int
  qs : List Tensor
  vs : List Tensor
  xis : List ℚ
deriving DecidableEq, Repr

/-- SGNHT state right after bind: t = -1 and the auxiliary variables of
SGNHT._define_variables (zero velocities, scalar thermostats holding
alpha). -/
def sgnhtChainInit (alpha : ℚ) (qs : List Tensor) : SGNHTChain :=
  ⟨-1, qs, (sgnhtDefineVariables alpha qs).vs,
    (sgnhtDefineVariables alpha qs).xis.map Tensor.item⟩

/-- Per-latent traversal of SGNHT._update (lines 169-170), all latents
receiving the one incremented counter value newT. -/
def sgnhtBatch (sqrtF : ℚ → ℚ) (lr alpha tuneRate : ℚ) (newT : Int) :
    List Tensor → List Tensor → List ℚ → List Tensor →
    List ((Nat → ℚ) × (Nat → ℚ)) → List SGNHTRes
  | q :: qs, v :: vs, xi :: xis, g :: gs, e :: es =>
    sgnhtUpdateSingle sqrtF lr alpha tuneRate newT q v xi g e.1 e.2 ::
      sgnhtBatch sqrtF lr alpha tuneRate newT qs vs xis gs es
  | _, _, _, _, _ => []

/-- Embedding of running one SGNHT step (SGNHT._update, lines 167-170):
new_t = t.assign_add(1) runs first, then every latent is updated with the
same new_t. -/
def sgnhtChainStep (sqrtF : ℚ → ℚ) (lr alpha tuneRate : ℚ)
    (gradFn : List Tensor → List Tensor)
    (epss : List ((Nat → ℚ) × (Nat → ℚ))) (st : SGNHTChain) : SGNHTChain :=
  let newT := st.t + 1
  let rs := sgnhtBatch sqrtF lr alpha tuneRate newT st.qs st.vs st.xis
    (gradFn st.qs) epss
  ⟨newT, rs.map (·.newQ), rs.map (·.newV), rs.map (·.newXi)⟩

/-! ## Grouped assignment semantics (tf.group of the assign ops, line 59) -/

/-- Store of tf variables, keyed by variable name. -/
abbrev VarStore := String → Tensor

/-- One variable assignment made visible in the store. -/
def assignVar (st : VarStore) (kv : String × Tensor) : VarStore :=
  fun k => if k = kv.1 then kv.2 else st k

/-- Commit of a batch of assignments whose values were already computed; the
grouped op of line 59 executes exactly such a batch. -/
def assignAll (asgns : List (String × Tensor)) (st : VarStore) : VarStore :=
  asgns.foldl assignVar st

/-- Per-latent data an SGLD step works on: the latent variable's name, its
gradient, and the fresh noise stream of its random_normal call. -/
structure SGLDSlot where
  qName : String
  grad : Tensor
  eps : Nat → ℚ

/-- Assignment batch one SGLD step computes from the pre-step store s: every
new latent value is a function of s only (lines 97-100: the assign consumes
the fully computed new_q). -/
def sgldStepAssigns (sqrtF : ℚ → ℚ) (lr : ℚ) (slots : List SGLDSlot)
    (s : VarStore) : List (String × Tensor) :=
  slots.map fun sl =>
    (sl.qName, sgldUpdateSingle sqrtF lr (s sl.qName) sl.grad sl.eps)

/-- The grouped SGLD step op: compute the whole assignment batch from the
snapshot s, then commit it. -/
def sgldSampleOp (sqrtF : ℚ → ℚ) (lr : ℚ) (slots : List SGLDSlot)
    (s : VarStore) : VarStore :=
  assignAll (sgldStepAssigns sqrtF lr slots s) s

/-- Per-latent data an SGHMC step works on: names of the latent and velocity
variables, the gradient, and the two fresh noise streams. -/
structure SGHMCSlot where
  qName : String
  vName : String
  grad : Tensor
  eps1 : Nat → ℚ
  eps2 : Nat → ℚ

/-- Assignment batch one SGHMC step computes from the pre-step store s
(lines 142-145: both assigns wait, via control_dependencies, for new_q and
new_v, which read only the old q and v). -/
def sghmcStepAssigns (sqrtF : ℚ → ℚ) (lr alpha beta : ℚ)
    (nRes newT : Int) : List SGHMCSlot → VarStore →
    Option (List (String × Tensor))
  | [], _ => some []
  | sl :: rest, s =>
    match sghmcUpdateSingle sqrtF lr alpha beta nRes newT (s sl.qName)
        (s sl.vName) sl.grad sl.eps1 sl.eps2 with
    | none => none
    | some r =>
      match sghmcStepAssigns sqrtF lr alpha beta nRes newT rest s with
      | none => none
      | some as => some ((sl.qName, r.newQ) :: (sl.vName, r.newV) :: as)

/-- The grouped SGHMC step op (tf.group of line 145 and line 59): if any
per-latent computation fails, nothing commits; otherwise the whole batch
commits. -/
def sghmcSampleOp (sqrtF : ℚ → ℚ) (lr alpha beta : ℚ) (nRes newT : Int)
    (slots : List SGHMCSlot) (s : VarStore) : Option VarStore :=
  match sghmcStepAssigns sqrtF lr alpha beta nRes newT slots s with
  | none => none
  | some as => some (assignAll as s)

/-- Per-latent data an SGNHT step works on: names of the latent, velocity and
thermostat variables, the gradient, and the two fresh noise streams. -/
structure SGNHTSlot where
  qName : String
  vName : String
  xiName : String
  grad : Tensor
  eps1 : Nat → ℚ
  eps2 : Nat → ℚ

/-- Assignment batch one SGNHT step computes from the pre-step store s
(lines 184-188: the three assigns wait for new_q, new_v, new_xi, which read
only the old q, v, xi). -/
def sgnhtStepAssigns (sqrtF : ℚ → ℚ) (lr alpha tuneRate : ℚ) (newT : Int)
    (slots : List SGNHTSlot) (s : VarStore) : List (String × Tensor) :=
  slots.foldr
    (fun sl acc =>
      let r := sgnhtUpdateSingle sqrtF lr alpha tuneRate newT (s sl.qName)
        (s sl.vName) (s sl.xiName).item sl.grad sl.eps1 sl.eps2
      (sl.qName, r.newQ) :: (sl.vName, r.newV) ::
        (sl.xiName, scalarTensor r.newXi) :: acc)
    []

/-- The grouped SGNHT step op (tf.group of line 188 and line 59). -/
def sgnhtSampleOp (sqrtF : ℚ → ℚ) (lr alpha tuneRate : ℚ) (newT : Int)
    (slots : List SGNHTSlot) (s : VarStore) : VarStore :=
  assignAll (sgnhtStepAssigns sqrtF lr alpha tuneRate newT slots s) s

/-! ## Theorems -/

/-- Claim C1, against the code: with n_iter_resample_v equal to 0 (the value
the constructor also substitutes for None), every SGHMC per-latent update
evaluates tf.mod(new_t, 0) in its cond predicate, an integer mod by zero the
engine faults on, for every counter value and every input.  The step never
proceeds as a no-resample update, contradicting the claim that t mod 0 is
never computed and that resample_interval 0 means never resample. -/
theorem sghmc_resample_interval_zero_always_faults :
    normalizeNIterResampleV none = 0 ∧
    ∀ (sqrtF : ℚ → ℚ) (lr alpha beta : ℚ) (newT : Int) (q v grad : Tensor)
      (eps1 eps2 : Nat → ℚ),
      sghmcUpdateSingle sqrtF lr alpha beta 0 newT q v grad eps1 eps2 =
        none := by
  refine ⟨rfl, ?_⟩
  intro sqrtF lr alpha beta newT q v grad eps1 eps2
  simp [sghmcUpdateSingle, tfMod]

/-- Claim C2, against the code: the bodies of the base-class hooks
SGMCMC._update and SGMCMC._define_variables are return NotImplementedError(),
so a direct call of either returns normally, handing back an exception
instance as an ordinary value, and raises nothing — contradicting the claim
that the call fails immediately. -/
theorem sgmcmc_base_hooks_return_not_raise :
    sgmcmcUpdateHookBase = PyCallResult.ret NotImplErrInstance.mk ∧
    sgmcmcDefineVariablesHookBase = PyCallResult.ret NotImplErrInstance.mk ∧
    (∀ e, sgmcmcUpdateHookBase ≠ PyCallResult.raised e) ∧
    (∀ e, sgmcmcDefineVariablesHookBase ≠ PyCallResult.raised e) := by
  refine ⟨rfl, rfl, ?_, ?_⟩ <;> intro e h <;> cases h

/-- Claim C10: binding with an empty latent mapping fails with the
tuple-unpacking ValueError of line 42, whatever the algorithm's auxiliary
state allocator would do (it is never consulted), and that outcome is
distinct from the TypeError naming a latent key. -/
theorem sample_empty_latent_unpack_value_error :
    (∀ (σ : Type) (defineVariables : List Tensor → σ),
      sgmcmcSampleBind defineVariables [] = BindResult.unpackValueError) ∧
    ∀ (σ : Type) (k : String),
      (BindResult.unpackValueError : BindResult σ) ≠
        BindResult.latentTypeError k := by
  refine ⟨fun σ dv => rfl, fun σ k h => ?_⟩
  cases h

/-- Claim C7: the SGNHT per-latent update implements exactly the update of
spec section 4.4: a fresh Normal(0, lr) momentum exactly when the incremented
counter equals 0 (the stored velocity on every other step), then
new_v = (1 - xi) * old_v + lr * g + Normal(0, 2*alpha*lr) noise,
new_q = q + new_v, and new_xi = xi + tune_rate * (mean_k - lr) with mean_k
the mean of new_v squared. -/
theorem sgnht_update_refines_spec (sqrtF : ℚ → ℚ) (lr alpha tuneRate : ℚ)
    (newT : Int) (q v : Tensor) (xi : ℚ) (grad : Tensor)
    (eps1 eps2 : Nat → ℚ) :
    sgnhtUpdateSingle sqrtF lr alpha tuneRate newT q v xi grad eps1 eps2 =
      specSGNHTUpdate sqrtF lr alpha tuneRate newT q v xi grad eps1 eps2 :=
  rfl

/-- Claim C6: whenever resample_interval is positive, the SGHMC per-latent
update succeeds and implements exactly the update of spec section 4.3: a
fresh Normal(0, lr) momentum when the incremented counter t has
t mod resample_interval == 0 (the stored velocity otherwise), then
new_v = (1 - alpha) * old_v + lr * g + Normal(0, 2*(alpha-beta)*lr) noise,
new_q = q + new_v, and the diagnostic mean_k is the mean of the squared
entries of new_v. -/
theorem sghmc_update_refines_spec (sqrtF : ℚ → ℚ) (lr alpha beta : ℚ)
    (nRes newT : Int) (q v grad : Tensor) (eps1 eps2 : Nat → ℚ)
    (hpos : 0 < nRes) :
    sghmcUpdateSingle sqrtF lr alpha beta nRes newT q v grad eps1 eps2 =
      some (specSGHMCUpdate sqrtF lr alpha beta nRes newT q v grad
        eps1 eps2) := by
  have hne : nRes ≠ 0 := by omega
  unfold sghmcUpdateSingle specSGHMCUpdate tfMod
  simp only [hne, if_false, hpos, true_and]
  by_cases h : newT % nRes = 0 <;> simp [h, reduceMean]

/-- Witness for claim C6 at a concrete input: resample interval 1, first
step. -/
theorem sghmc_update_refines_spec_witness :
    (0 : Int) < 1 ∧
    sghmcUpdateSingle id 1 0 0 1 0 (scalarTensor 2) (scalarTensor 0)
        (scalarTensor 3) (fun _ => 0) (fun _ => 0) =
      some (specSGHMCUpdate id 1 0 0 1 0 (scalarTensor 2) (scalarTensor 0)
        (scalarTensor 3) (fun _ => 0) (fun _ => 0)) :=
  ⟨by decide,
    sghmc_update_refines_spec id 1 0 0 1 0 (scalarTensor 2) (scalarTensor 0)
      (scalarTensor 3) (fun _ => 0) (fun _ => 0) (by decide)⟩

/-- Helper: elementwise addition with a list of zeros that is at least as
long changes nothing. -/
theorem zipWith_add_all_zero (l z : List ℚ) (hlen : l.length ≤ z.length)
    (hz : ∀ x ∈ z, x = 0) : List.zipWith (· + ·) l z = l := by
  induction l generalizing z with
  | nil => simp
  | cons a t ih =>
    cases z with
    | nil => simp at hlen
    | cons b zt =>
      have hb : b = 0 := hz b (List.mem_cons_self b zt)
      have ht : List.zipWith (· + ·) t zt = t :=
        ih zt (by simpa using hlen) fun x hx => hz x (List.mem_cons_of_mem b hx)
      simp [hb, ht]

/-- Claim C8: the SGLD per-latent update implements exactly the update of
spec section 4.2, new_q = q + 0.5 * lr * g + Normal(0, lr) noise; and with
learning rate 0 the noise stddev sqrt 0 vanishes, so the update is
deterministic and returns the latent unchanged. -/
theorem sgld_update_refines_spec_and_zero_lr (sqrtF : ℚ → ℚ) (lr : ℚ)
    (q grad : Tensor) (eps : Nat → ℚ) (hq : q.WF)
    (hg : q.data.length ≤ grad.data.length) (h0 : sqrtF 0 = 0) :
    sgldUpdateSingle sqrtF lr q grad eps = specSGLDUpdate sqrtF lr q grad eps ∧
    (lr = 0 → sgldUpdateSingle sqrtF lr q grad eps = q) := by
  refine ⟨rfl, fun hlr => ?_⟩
  subst hlr
  obtain ⟨shp, dat⟩ := q
  have hwf : dat.length = numel shp := hq
  unfold sgldUpdateSingle Tensor.add Tensor.smul randomNormal
  simp only [h0]
  have hr1 : List.zipWith (· + ·) dat
      (List.replicate grad.data.length (0 : ℚ)) = dat :=
    zipWith_add_all_zero _ _ (by simpa using hg) fun x hx =>
      List.eq_of_mem_replicate hx
  have hr2 : List.zipWith (· + ·) dat
      (List.replicate (numel shp) (0 : ℚ)) = dat :=
    zipWith_add_all_zero _ _ (le_of_eq (by simp [hwf])) fun x hx =>
      List.eq_of_mem_replicate hx
  simp [hr1, hr2]

/-- Witness for claim C8 at a concrete input: learning rate 0, a well-formed
shape-[1] latent. -/
theorem sgld_update_refines_spec_and_zero_lr_witness :
    sgldUpdateSingle id 0 (Tensor.mk [1] [5]) (Tensor.mk [1] [7])
        (fun _ => 2) = Tensor.mk [1] [5] :=
  (sgld_update_refines_spec_and_zero_lr id 0 (Tensor.mk [1] [5])
    (Tensor.mk [1] [7]) (fun _ => 2) (by decide) (by decide) (by decide)).2
    rfl

/-- Helper: whenever some latent value fails the isinstance check, the loop
of lines 43-46 finds a first offending key, and that key is offending. -/
theorem firstNonVariable_spec (l : List (String × PyVal))
    (hbad : ∃ kv ∈ l, isTFVariable kv.2 = false) :
    ∃ k, firstNonVariable l = some k ∧
      ∃ v, (k, v) ∈ l ∧ isTFVariable v = false := by
  induction l with
  | nil => simp at hbad
  | cons a rest ih =>
    by_cases ha : isTFVariable a.2
    · obtain ⟨kv, hmem, hkv⟩ := hbad
      rcases List.mem_cons.mp hmem with heq | htail
      · rw [heq] at hkv; rw [hkv] at ha; simp at ha
      · obtain ⟨k, hfst, v, hv, hvv⟩ := ih ⟨kv, htail, hkv⟩
        exact ⟨k, by simp [firstNonVariable, ha, hfst],
          v, List.mem_cons_of_mem a hv, hvv⟩
    · refine ⟨a.1, by simp [firstNonVariable, ha], a.2, ?_, by simpa using ha⟩
      have : (a.1, a.2) = a := rfl
      rw [this]
      exact List.mem_cons_self a rest

/-- Claim C3: binding a non-empty latent mapping in which some value is not a
tf.Variable fails with the TypeError naming an offending latent key, and the
outcome is independent of the algorithm's auxiliary-state allocator, which is
never invoked (so no auxiliary state is created). -/
theorem sample_nonvariable_latent_type_error
    (latent : List (String × PyVal)) (hne : latent ≠ [])
    (hbad : ∃ kv ∈ latent, isTFVariable kv.2 = false) :
    ∃ k, (∃ v, (k, v) ∈ latent ∧ isTFVariable v = false) ∧
      ∀ (σ : Type) (defineVariables : List Tensor → σ),
        sgmcmcSampleBind defineVariables latent =
          BindResult.latentTypeError k := by
  obtain ⟨k, hfst, v, hmem, hv⟩ := firstNonVariable_spec latent hbad
  refine ⟨k, ⟨v, hmem, hv⟩, fun σ dv => ?_⟩
  cases latent with
  | nil => exact absurd rfl hne
  | cons a rest => simp [sgmcmcSampleBind, hfst]

/-- Witness for claim C3 at a concrete input: two latents, the second bound
to a plain tensor. -/
theorem sample_nonvariable_latent_type_error_witness :
    ∃ k, (∃ v, (k, v) ∈
        [("a", PyVal.tfVariable (scalarTensor 0)),
         ("b", PyVal.tfTensor (scalarTensor 1))] ∧
      isTFVariable v = false) ∧
      ∀ (σ : Type) (defineVariables : List Tensor → σ),
        sgmcmcSampleBind defineVariables
            [("a", PyVal.tfVariable (scalarTensor 0)),
             ("b", PyVal.tfTensor (scalarTensor 1))] =
          BindResult.latentTypeError k :=
  sample_nonvariable_latent_type_error _ (by decide) (by decide)

/-- Claim C4 counterexample: binding an SGNHT sampler to a single latent of
shape [2] allocates a thermostat variable of rank 0 (shape []), not of the
latent's shape [2]: xi is not broadcast to the latent's shape, so the claimed
shape match of every auxiliary tensor fails at this input. -/
theorem sgnht_xi_not_broadcast_counterexample :
    (sgnhtDefineVariables 0 [Tensor.mk [2] [3, 4]]).xis.map Tensor.shape =
      [[]] ∧
    ([] : List Nat) ≠ [2] := by decide

/-- Claim C4 amended: every SGNHT velocity variable is a zero tensor with
exactly its owning latent's shape, while every thermostat variable is
initialised to the rank-0 tensor holding alpha (the scalar variance_extra
parameter), whatever the latent's shape. -/
theorem sgnht_define_variables_shapes (alpha : ℚ) (qs : List Tensor)
    (i : Nat) (hi : i < qs.length) :
    ((sgnhtDefineVariables alpha qs).vs.getD i (scalarTensor 0)).shape =
      (qs.getD i (scalarTensor 0)).shape ∧
    (sgnhtDefineVariables alpha qs).xis.getD i (scalarTensor 0) =
      scalarTensor alpha := by
  unfold sgnhtDefineVariables
  have hv : i < (qs.map Tensor.zerosLike).length := by simpa using hi
  have hx : i < (qs.map fun _ => scalarTensor alpha).length := by simpa using hi
  rw [List.getD_eq_getElem _ _ hv, List.getD_eq_getElem _ _ hx,
    List.getD_eq_getElem _ _ hi]
  simp [Tensor.zerosLike]

/-- Witness for claim C4 (amended) at a concrete input: one latent of shape
[2], thermostat value 5. -/
theorem sgnht_define_variables_shapes_witness :
    ((sgnhtDefineVariables 5 [Tensor.mk [2] [3, 4]]).vs.getD 0
        (scalarTensor 0)).shape = ((([Tensor.mk [2] [3, 4]] :
      List Tensor)).getD 0 (scalarTensor 0)).shape ∧
    (sgnhtDefineVariables 5 [Tensor.mk [2] [3, 4]]).xis.getD 0
        (scalarTensor 0) = scalarTensor 5 :=
  sgnht_define_variables_shapes 5 [Tensor.mk [2] [3, 4]] 0 (by decide)

/-- Helper: a successful SGHMC step moves the counter from t to t + 1 (the
assign_add of line 126). -/
theorem sghmcChainStep_t (sqrtF : ℚ → ℚ) (lr alpha beta : ℚ) (nRes : Int)
    (gradFn : List Tensor → List Tensor)
    (epss : List ((Nat → ℚ) × (Nat → ℚ))) (st st' : SGHMCChain)
    (h : sghmcChainStep sqrtF lr alpha beta nRes gradFn epss st = some st') :
    st'.t = st.t + 1 := by
  simp only [sghmcChainStep] at h
  obtain ⟨rs, _, hf⟩ := Option.map_eq_some'.mp h
  rw [← hf]

/-- Helper: K successful SGHMC steps move the counter from t to t + K. -/
theorem sghmcChainRun_t (sqrtF : ℚ → ℚ) (lr alpha beta : ℚ) (nRes : Int)
    (gradFn : List Tensor → List Tensor)
    (epssAt : Nat → List ((Nat → ℚ) × (Nat → ℚ))) :
    ∀ (K : Nat) (st st' : SGHMCChain),
      sghmcChainRun sqrtF lr alpha beta nRes gradFn epssAt K st = some st' →
      st'.t = st.t + K := by
  intro K
  induction K with
  | zero =>
    intro st st' h
    injection h with h2
    rw [← h2]
    simp
  | succ k ih =>
    intro st st' h
    unfold sghmcChainRun at h
    obtain ⟨st2, hb, hrun⟩ := Option.bind_eq_some.mp h
    have h1 := ih st2 st' hrun
    have h2 := sghmcChainStep_t sqrtF lr alpha beta nRes gradFn (epssAt k)
      st st2 hb
    omega

/-- Claim C5 counterexample: the SGLD update (lines 94-95) contains no
assign_add on the counter; after one SGLD step from the freshly bound state
the counter still holds -1, not 0, so the counter is not incremented at every
update batch of all three algorithms. -/
theorem sgld_counter_not_incremented_counterexample :
    (sgldChainStep id 1 (fun l => l) [fun _ => 0]
        (sgldChainInit [scalarTensor 0])).t = -1 ∧
    (-1 : Int) ≠ 0 :=
  ⟨rfl, by decide⟩

/-- Claim C5 amended: the shared counter t is initialised to -1 for every
sampler; SGHMC and SGNHT increment it by exactly 1 at the start of every
update batch and hand the single incremented value to every latent's update,
so whenever K SGHMC steps succeed the counter ends at K - 1; SGLD never
increments or reads t. -/
theorem step_counter_amended :
    (∀ qs, (sgldChainInit qs).t = -1) ∧
    (∀ qs, (sghmcChainInit qs).t = -1) ∧
    (∀ (alpha : ℚ) qs, (sgnhtChainInit alpha qs).t = -1) ∧
    (∀ (sqrtF : ℚ → ℚ) (lr : ℚ) gradFn epss st,
      (sgldChainStep sqrtF lr gradFn epss st).t = st.t) ∧
    (∀ (sqrtF : ℚ → ℚ) (lr alpha tuneRate : ℚ) gradFn epss st,
      (sgnhtChainStep sqrtF lr alpha tuneRate gradFn epss st).t =
        st.t + 1) ∧
    (∀ (sqrtF : ℚ → ℚ) (lr alpha beta : ℚ) (nRes : Int) gradFn epss st,
      (sghmcChainStep sqrtF lr alpha beta nRes gradFn epss st).map
          SGHMCChain.t =
        (sghmcChainStep sqrtF lr alpha beta nRes gradFn epss st).map
          fun _ => st.t + 1) ∧
    (∀ (sqrtF : ℚ → ℚ) (lr alpha beta : ℚ) (nRes : Int) gradFn epssAt
        (K : Nat) qs,
      (sghmcChainRun sqrtF lr alpha beta nRes gradFn epssAt K
          (sghmcChainInit qs)).map SGHMCChain.t =
        (sghmcChainRun sqrtF lr alpha beta nRes gradFn epssAt K
          (sghmcChainInit qs)).map fun _ => (K : Int) - 1) := by
  refine ⟨fun qs => rfl, fun qs => rfl, fun alpha qs => rfl,
    fun sqrtF lr gradFn epss st => rfl,
    fun sqrtF lr alpha tuneRate gradFn epss st => rfl,
    fun sqrtF lr alpha beta nRes gradFn epss st => ?_,
    fun sqrtF lr alpha beta nRes gradFn epssAt K qs => ?_⟩
  · rcases hb : sghmcChainStep sqrtF lr alpha beta nRes gradFn epss st
      with _ | st'
    · rfl
    · have := sghmcChainStep_t sqrtF lr alpha beta nRes gradFn epss st st' hb
      simp [this]
  · rcases hb : sghmcChainRun sqrtF lr alpha beta nRes gradFn epssAt K
      (sghmcChainInit qs) with _ | st'
    · rfl
    · have := sghmcChainRun_t sqrtF lr alpha beta nRes gradFn epssAt K
        (sghmcChainInit qs) st' hb
      simp only [sghmcChainInit] at this
      simp [this]
      omega

/-- Helper: committing a batch that never targets k leaves k unchanged. -/
theorem assignAll_not_mem (asgns : List (String × Tensor)) (s : VarStore)
    (k : String) (hk : k ∉ asgns.map Prod.fst) :
    assignAll asgns s k = s k := by
  induction asgns generalizing s with
  | nil => rfl
  | cons a rest ih =>
    have hk1 : k ≠ a.1 := fun h => hk (by simp [h])
    have hk2 : k ∉ rest.map Prod.fst := fun h => hk (by simp [h])
    show assignAll rest (assignVar s a) k = s k
    rw [ih (assignVar s a) hk2]
    simp [assignVar, hk1]

/-- Helper: committing a batch with pairwise-distinct targets sets each
target to the value the batch carries for it. -/
theorem assignAll_mem_nodup (asgns : List (String × Tensor)) (s : VarStore)
    (k : String) (v : Tensor) (hnd : (asgns.map Prod.fst).Nodup)
    (hmem : (k, v) ∈ asgns) : assignAll asgns s k = v := by
  induction asgns generalizing s with
  | nil => simp at hmem
  | cons a rest ih =>
    have hnd1 : a.1 ∉ rest.map Prod.fst :=
      (List.nodup_cons.mp (by simpa using hnd)).1
    have hnd2 : (rest.map Prod.fst).Nodup :=
      (List.nodup_cons.mp (by simpa using hnd)).2
    rcases List.mem_cons.mp hmem with heq | htail
    · have hk : a.1 = k := by rw [← heq]
      show assignAll rest (assignVar s a) k = v
      rw [assignAll_not_mem rest _ k (hk ▸ hnd1)]
      simp [assignVar, ← heq]
    · show assignAll rest (assignVar s a) k = v
      exact ih (assignVar s a) hnd2 htail

/-- Helper: with pairwise-distinct targets, committing the batch in any
order yields the same store. -/
theorem assignAll_perm (asgns asgns2 : List (String × Tensor))
    (s : VarStore) (hperm : asgns.Perm asgns2)
    (hnd : (asgns.map Prod.fst).Nodup) (k : String) :
    assignAll asgns2 s k = assignAll asgns s k := by
  by_cases hk : k ∈ asgns.map Prod.fst
  · obtain ⟨⟨k1, v⟩, hp, hpk⟩ := List.mem_map.mp hk
    simp only at hpk
    subst hpk
    have hnd2 : (asgns2.map Prod.fst).Nodup :=
      ((hperm.map Prod.fst).nodup_iff).mp hnd
    rw [assignAll_mem_nodup asgns s k1 v hnd hp,
      assignAll_mem_nodup asgns2 s k1 v hnd2 (hperm.mem_iff.mp hp)]
  · have hk2 : k ∉ asgns2.map Prod.fst := fun h =>
      hk (((hperm.map Prod.fst).mem_iff).mpr h)
    rw [assignAll_not_mem _ _ _ hk2, assignAll_not_mem _ _ _ hk]

/-- Claim C9: for each algorithm the step is one grouped commit of an
assignment batch whose every value was computed from the pre-step snapshot s.
Consequently (given pairwise-distinct target variables, as distinct tf
variables have) the commit is invariant under any execution order of the
grouped assignments, every latent and auxiliary variable ends at exactly its
snapshot-computed value, and a failing SGHMC step commits nothing at all. -/
theorem grouped_step_snapshot_atomicity :
    (∀ (sqrtF : ℚ → ℚ) (lr : ℚ) slots (s : VarStore) asgns2 k,
      ((sgldStepAssigns sqrtF lr slots s).map Prod.fst).Nodup →
      (sgldStepAssigns sqrtF lr slots s).Perm asgns2 →
      assignAll asgns2 s k = sgldSampleOp sqrtF lr slots s k) ∧
    (∀ (sqrtF : ℚ → ℚ) (lr : ℚ) slots (s : VarStore) k v,
      ((sgldStepAssigns sqrtF lr slots s).map Prod.fst).Nodup →
      (k, v) ∈ sgldStepAssigns sqrtF lr slots s →
      sgldSampleOp sqrtF lr slots s k = v) ∧
    (∀ (sqrtF : ℚ → ℚ) (lr alpha beta : ℚ) (nRes newT : Int) slots
        (s : VarStore) asgns,
      sghmcStepAssigns sqrtF lr alpha beta nRes newT slots s = some asgns →
      sghmcSampleOp sqrtF lr alpha beta nRes newT slots s =
        some (assignAll asgns s) ∧
      (∀ asgns2 k, (asgns.map Prod.fst).Nodup → asgns.Perm asgns2 →
        assignAll asgns2 s k = assignAll asgns s k) ∧
      (∀ k v, (asgns.map Prod.fst).Nodup → (k, v) ∈ asgns →
        assignAll asgns s k = v)) ∧
    (∀ (sqrtF : ℚ → ℚ) (lr alpha beta : ℚ) (nRes newT : Int) slots
        (s : VarStore),
      sghmcStepAssigns sqrtF lr alpha beta nRes newT slots s = none →
      sghmcSampleOp sqrtF lr alpha beta nRes newT slots s = none) ∧
    (∀ (sqrtF : ℚ → ℚ) (lr alpha tuneRate : ℚ) (newT : Int) slots
        (s : VarStore) asgns2 k,
      ((sgnhtStepAssigns sqrtF lr alpha tuneRate newT slots s).map
        Prod.fst).Nodup →
      (sgnhtStepAssigns sqrtF lr alpha tuneRate newT slots s).Perm asgns2 →
      assignAll asgns2 s k =
        sgnhtSampleOp sqrtF lr alpha tuneRate newT slots s k) := by
  refine ⟨?_, ?_, ?_, ?_, ?_⟩
  · intro sqrtF lr slots s asgns2 k hnd hperm
    exact assignAll_perm _ asgns2 s hperm hnd k
  · intro sqrtF lr slots s k v hnd hmem
    exact assignAll_mem_nodup _ s k v hnd hmem
  · intro sqrtF lr alpha beta nRes newT slots s asgns hsome
    refine ⟨by simp [sghmcSampleOp, hsome], ?_, ?_⟩
    · intro asgns2 k hnd hperm
      exact assignAll_perm asgns asgns2 s hperm hnd k
    · intro k v hnd hmem
      exact assignAll_mem_nodup asgns s k v hnd hmem
  · intro sqrtF lr alpha beta nRes newT slots s hnone
    simp [sghmcSampleOp, hnone]
  · intro sqrtF lr alpha tuneRate newT slots s asgns2 k hnd hperm
    exact assignAll_perm _ asgns2 s hperm hnd k

/-- Witness for claim C9 at a concrete input: two SGLD latents committed in
reversed order yield the same store as the grouped step op. -/
theorem grouped_step_snapshot_atomicity_witness :
    assignAll
        (sgldStepAssigns id 1
          [⟨"q1", scalarTensor 0, fun _ => 0⟩,
           ⟨"q2", scalarTensor 0, fun _ => 0⟩]
          (fun _ => scalarTensor 0)).reverse (fun _ => scalarTensor 0)
        "q1" =
      sgldSampleOp id 1
        [⟨"q1", scalarTensor 0, fun _ => 0⟩,
         ⟨"q2", scalarTensor 0, fun _ => 0⟩]
        (fun _ => scalarTensor 0) "q1" :=
  grouped_step_snapshot_atomicity.1 id 1
    [⟨"q1", scalarTensor 0, fun _ => 0⟩, ⟨"q2", scalarTensor 0, fun _ => 0⟩]
    (fun _ => scalarTensor 0) _ "q1" (by decide)
    (List.reverse_perm _).symm

end ZhusuanSGMCMC
